import Mathlib

/-!
Shallow embedding of `src/vCardConvert.py` (vCard → CSV/JSON converter).

Python strings are modelled as `List Char`; Python code that can raise an
uncaught exception (IndexError on `list[i]`, AttributeError on
`None.group(i)`) is modelled with `Option`, where `none` stands for the
uncaught exception aborting the run.  The module-level function attributes
`parse_vcard.preferred`, `format_address.enabled`, `format_phone.enabled`
are modelled as an explicit `Config` record, and the flag
`custom_column_ordering.enabled` as an explicit boolean argument.
-/

namespace VCard

/-- Python `str` modelled as a list of characters. -/
abbrev Str := List Char

/-- Conversion from a Lean string literal to the model type. -/
def S (s : String) : Str := s.toList

/-- Whitespace characters stripped by Python `str.strip()`. -/
def isWs (c : Char) : Bool :=
  c == ' ' || c == '\t' || c == '\n' || c == '\r' || c == '\x0b' || c == '\x0c'

/-- Python `s.startswith(p)`. -/
def startsW : Str → Str → Bool
  | [], _ => true
  | _ :: _, [] => false
  | p :: ps, c :: cs => p == c && startsW ps cs

/-- Python `s.endswith(p)`. -/
def endsW (p s : Str) : Bool := startsW p.reverse s.reverse

/-- Python `s.strip()`. -/
def pyStrip (s : Str) : Str :=
  ((s.dropWhile isWs).reverse.dropWhile isWs).reverse

/-- Python `s.split(c, 1)` when the separator occurs: returns the parts
around the first occurrence; `none` when the separator is absent
(`[s]` in Python, so indexing `[1]` would raise). -/
def splitOnce? (c : Char) : Str → Option (Str × Str)
  | [] => none
  | x :: xs =>
    if x == c then some ([], xs)
    else (splitOnce? c xs).map (fun p => (x :: p.1, p.2))

/-- Python `s.split(c, 1)[1]` at call sites where the guard guarantees the
separator occurs in `s` (the matched literal contains it). -/
def afterCh (c : Char) (s : Str) : Str :=
  match splitOnce? c s with
  | some p => p.2
  | none => []

/-- Python `s.split(c, 1)[-1]`: text after the first separator, or the whole
string when the separator is absent. -/
def afterChOr (c : Char) (s : Str) : Str :=
  match splitOnce? c s with
  | some p => p.2
  | none => s

/-- Python `s.split(c)` (single-character separator, no limit). -/
def splitCh (c : Char) : Str → List Str
  | [] => [[]]
  | x :: xs =>
    if x == c then [] :: splitCh c xs
    else
      match splitCh c xs with
      | [] => [[x]]
      | h :: t => (x :: h) :: t

/-- Worker for Python `s.split(sep)` with a multi-character separator
`sh :: st`; the accumulator holds the current chunk reversed.  Structural
recursion on fuel (each step consumes at least one character, so
`s.length` steps suffice) keeps the definition kernel-reducible. -/
def splitStrGo (sh : Char) (st : Str) : Nat → Str → Str → List Str
  | 0, s, acc => [acc.reverse ++ s]
  | _ + 1, [], acc => [acc.reverse]
  | fuel + 1, c :: cs, acc =>
    if sh == c && startsW st cs then
      acc.reverse :: splitStrGo sh st fuel (cs.drop st.length) []
    else splitStrGo sh st fuel cs (c :: acc)

/-- Python `s.split(sep)` for a non-empty separator string. -/
def splitStr (sep : Str) (s : Str) : List Str :=
  match sep with
  | [] => [s]
  | sh :: st => splitStrGo sh st s.length s []

/-- Python `s.split(sep)[1]` at call sites guarded by `s.startswith(sep)`
(so at least two parts exist). -/
def splitIdx1 (sep : Str) (s : Str) : Str :=
  (splitStr sep s).getD 1 []

/-- Python `needle in hay` (substring containment). -/
def containsSub (needle : Str) : Str → Bool
  | [] => startsW needle []
  | c :: cs => startsW needle (c :: cs) || containsSub needle cs

/-- Python `s.capitalize()`: first character upper-cased, the rest
lower-cased. -/
def pyCapitalize : Str → Str
  | [] => []
  | c :: cs => c.toUpper :: cs.map Char.toLower

/-- Python `s.lower()`. -/
def pyLower (s : Str) : Str := s.map Char.toLower

/-- Decimal rendering of a group index, as Python string interpolation
does for an `int`. -/
def natToStr (n : Nat) : Str := (Nat.repr n).toList

/-- The single-quote character, written by code point to keep source text
plain. -/
def quoteCh : Char := Char.ofNat 39

/-- Python `repr` of a string without quotes or escapes in it, the shape
produced for the raw vCard values interpolated into group diagnostics. -/
def pyRepr (s : Str) : Str := quoteCh :: (s ++ [quoteCh])

/-- Python `repr` of a list of such strings (f-string interpolation of
`groups[group]`). -/
def pyListRepr (vs : List Str) : Str :=
  S "[" ++ List.intercalate (S ", ") (vs.map pyRepr) ++ S "]"

/-- Diagnostic text `"Item Group: {group}, Values: {values}"` used for
unresolvable groups. -/
def groupRepr (k : Nat) (vs : List Str) : Str :=
  S "Item Group: " ++ natToStr k ++ S ", Values: " ++ pyListRepr vs

def isDigitCh (c : Char) : Bool := '0' ≤ c && c ≤ '9'

def isUpperAZ (c : Char) : Bool := 'A' ≤ c && c ≤ 'Z'

def isAlphaAZ (c : Char) : Bool :=
  ('A' ≤ c && c ≤ 'Z') || ('a' ≤ c && c ≤ 'z')

/-- Regex `^type=([A-Z]+)` of the source's `vcard_comm_type_single`:
returns group 1. -/
def matchTypeSingle (s : Str) : Option Str :=
  if startsW (S "type=") s then
    let rest := s.drop 5
    let g := rest.takeWhile isUpperAZ
    if g.isEmpty then none else some g
  else none

/-- Regex `^type=([a-zA-Z]+):(.+)$` of `vcard_comm_type_compound`:
returns groups 1 and 2.  The greedy letter run is deterministic because
backtracking it can never expose the required `:`. -/
def matchTypeCompound (s : Str) : Option (Str × Str) :=
  if startsW (S "type=") s then
    let rest := s.drop 5
    let g := rest.takeWhile isAlphaAZ
    if g.isEmpty then none
    else
      match rest.drop g.length with
      | ':' :: tail => if tail.isEmpty then none else some (g, tail)
      | _ => none
  else none

/-- Regex `^type=([a-zA-Z]+)(?:;type=pref)?:(.+)$` of
`vcard_comm_type_pref`: returns groups 1 and 2; the optional group is
greedy, so `;type=pref:` is tried before a bare `:`. -/
def matchTypePref (s : Str) : Option (Str × Str) :=
  if startsW (S "type=") s then
    let rest := s.drop 5
    let g := rest.takeWhile isAlphaAZ
    if g.isEmpty then none
    else
      let rem := rest.drop g.length
      if startsW (S ";type=pref:") rem then
        let tail := rem.drop 11
        if tail.isEmpty then none else some (g, tail)
      else
        match rem with
        | ':' :: tail => if tail.isEmpty then none else some (g, tail)
        | _ => none
  else none

/-- Regex `^item(\d+)\.(.+)$` of `vcard_grouped_field`: the numeric key
and the text after the dot. -/
def matchGrouped (s : Str) : Option (Nat × Str) :=
  if startsW (S "item") s then
    let rest := s.drop 4
    let ds := rest.takeWhile isDigitCh
    if ds.isEmpty then none
    else
      match rest.drop ds.length with
      | '.' :: tail =>
        if tail.isEmpty then none
        else some (ds.foldl (fun n c => n * 10 + (c.toNat - 48)) 0, tail)
      | _ => none
  else none

/-- Regex `^_\$!<([^>]+)>!\$_$` of `vcard_extra_label`: the wrapped inner
text.  `[^>]+` necessarily stops at the first `>`, after which exactly
`!$_` must remain. -/
def matchExtraLabel (s : Str) : Option Str :=
  if startsW (S "_$!<") s then
    let rest := s.drop 4
    let inner := rest.takeWhile (fun c => !(c == '>'))
    if inner.isEmpty then none
    else if rest.drop inner.length == S ">!$_" then some inner
    else none
  else none

/-- Length consumed by `X-APPLE-OMIT-YEAR=\d+:\d+-` when it matches at the
start of `s` (the `apple_yearless_date` pattern without its leading `.*`). -/
def omitYearEndAt (s : Str) : Option Nat :=
  if startsW (S "X-APPLE-OMIT-YEAR=") s then
    let r1 := s.drop 18
    let d1 := r1.takeWhile isDigitCh
    if d1.isEmpty then none
    else
      match r1.drop d1.length with
      | ':' :: r2 =>
        let d2 := r2.takeWhile isDigitCh
        if d2.isEmpty then none
        else
          match r2.drop d2.length with
          | '-' :: _ => some (18 + d1.length + 1 + d2.length + 1)
          | _ => none
      | _ => none
  else none

/-- End position of the leftmost match of `.*X-APPLE-OMIT-YEAR=\d+:\d+-`:
the greedy `.*` makes the match start at 0 and extend to the latest
position where the rest of the pattern succeeds. -/
def findYearlessEnd (s : Str) : Option Nat :=
  (List.range (s.length + 1)).reverse.findSome? fun p =>
    (omitYearEndAt (s.drop p)).map (fun c => p + c)

/-- Fueled worker for `re.sub` with the `apple_yearless_date` pattern:
repeatedly deletes the leftmost match. -/
def subYearlessGo : Nat → Str → Str
  | 0, s => s
  | fuel + 1, s =>
    match findYearlessEnd s with
    | some e => subYearlessGo fuel (s.drop e)
    | none => s

/-- `regex["apple_yearless_date"].sub("", s)`; every match consumes at
least 21 characters, so `s.length` steps of fuel suffice. -/
def subYearless (s : Str) : Str := subYearlessGo s.length s

/-- Exactly `n` digits from the front of `s`, with the remainder. -/
def takeNDigits : Nat → Str → Option (Str × Str)
  | 0, s => some ([], s)
  | _ + 1, [] => none
  | n + 1, c :: cs =>
    if isDigitCh c then (takeNDigits n cs).map (fun p => (c :: p.1, p.2))
    else none

/-- Backtracking alternatives of a greedy optional literal character:
consume it first when present. -/
def optCharAlts (c : Char) (s : Str) : List Str :=
  match s with
  | x :: xs => if x == c then [xs, x :: xs] else [x :: xs]
  | [] => [[]]

/-- Backtracking alternatives of the greedy optional separator class
`[-. ]?`. -/
def optSepAlts (s : Str) : List Str :=
  match s with
  | x :: xs =>
    if x == '-' || x == '.' || x == ' ' then [xs, x :: xs] else [x :: xs]
  | [] => [[]]

/-- The `\(?(\d{3})\)?[-. ]?(\d{3})[-. ]?(\d{4})$` core of the source's
`phone_format` regex, exploring alternatives in the engine's greedy
backtracking order. -/
def phoneCore (s : Str) : Option (Str × Str × Str) :=
  (optCharAlts '(' s).findSome? fun s1 =>
    (takeNDigits 3 s1).bind fun p1 =>
      (optCharAlts ')' p1.2).findSome? fun s3 =>
        (optSepAlts s3).findSome? fun s4 =>
          (takeNDigits 3 s4).bind fun p2 =>
            (optSepAlts p2.2).findSome? fun s6 =>
              (takeNDigits 4 s6).bind fun p3 =>
                if p3.2.isEmpty then some (p1.1, p2.1, p3.1) else none

/-- Backtracking alternatives of the greedy optional prefix
`(?:\+?1[-. ]?)?`: all consuming variants first, the empty variant last. -/
def phonePrefixAlts (s : Str) : List Str :=
  ((optCharAlts '+' s).flatMap fun s1 =>
    match s1 with
    | c :: s2 => if c == '1' then optSepAlts s2 else []
    | [] => []) ++ [s]

/-- `regex["phone_format"].match(s)`, returning the three capture groups. -/
def phoneMatch (s : Str) : Option (Str × Str × Str) :=
  (phonePrefixAlts s).findSome? phoneCore

/-- The module-level feature toggles stashed as function attributes in the
source (`parse_vcard.preferred`, `format_address.enabled`,
`format_phone.enabled`). -/
structure Config where
  preferred : Bool
  address : Bool
  phone : Bool
deriving DecidableEq

/-- `format_address`. -/
def formatAddress (cfg : Config) (a : Str) : Str :=
  if cfg.address then
    List.intercalate (S ", ")
      (((splitCh ';' a).map pyStrip).filter (fun comp => !comp.isEmpty))
  else a

/-- `format_phone`. -/
def formatPhone (cfg : Config) (p : Str) : Str :=
  if cfg.phone then
    match phoneMatch p with
    | some g => g.1 ++ S "-" ++ g.2.1 ++ S "-" ++ g.2.2
    | none => p
  else p

/-- The `label_select` if/elif chain of the `TEL;` rule.  The two inner
`for` loops carry no `break`, so among `Home`/`Work`/`Other`(/`Main`) the
last candidate present overwrites earlier ones. -/
def labelSelect (labels : List Str) : Str :=
  if S "Pager" ∈ labels then S "Pager"
  else if S "Fax" ∈ labels then
    [S "Home", S "Work", S "Other"].foldl
      (fun acc lab => if lab ∈ labels then S "Fax: " ++ lab else acc) []
  else if S "Applewatch" ∈ labels then S "Phone: Apple Watch"
  else if S "Iphone" ∈ labels then S "Phone: iPhone"
  else if S "Cell" ∈ labels then S "Phone: Cell"
  else
    [S "Home", S "Work", S "Other", S "Main"].foldl
      (fun acc lab => if lab ∈ labels then S "Phone: " ++ lab else acc) []

/-- Per-entry mutable state of the line loop: the `groups` dict (an
insertion-ordered association list, as a Python dict iterates) and the
accumulated `save` list of field pairs. -/
structure PState where
  groups : List (Nat × List Str)
  save : List (Str × Str)
deriving DecidableEq

/-- `save.append(...)` for a batch of pairs. -/
def addSave (st : PState) (ps : List (Str × Str)) : PState :=
  { st with save := st.save ++ ps }

/-- `groups.setdefault`-style update: append `v` to the list at key `k`,
creating the key at the end (dict insertion order) when absent. -/
def groupAdd (gs : List (Nat × List Str)) (k : Nat) (v : Str) :
    List (Nat × List Str) :=
  if gs.any (fun p => p.1 == k) then
    gs.map (fun p => if p.1 == k then (p.1, p.2 ++ [v]) else p)
  else gs ++ [(k, [v])]

/-- Pair emitted only when the component is truthy (non-empty), as in
`if parts[i]: save.append(...)`. -/
def truthyPair (lab v : Str) : List (Str × Str) :=
  if v.isEmpty then [] else [(lab, v)]

/-- Pairs of the `N:` rule from its five positional components. -/
def namePairs (parts : List Str) : List (Str × Str) :=
  truthyPair (S "Name: Last") (parts.getD 0 []) ++
  truthyPair (S "Name: First") (parts.getD 1 []) ++
  truthyPair (S "Name: Middle") (parts.getD 2 []) ++
  truthyPair (S "Name: Prefix") (parts.getD 3 []) ++
  truthyPair (S "Name: Suffix") (parts.getD 4 [])

/-- The classification rule chain of `parse_vcard` applied to one already
stripped line, in the source's priority order.  `none` models an uncaught
exception (IndexError / AttributeError) aborting the run. -/
def classifyStripped (cfg : Config) (field : Str) (st : PState) :
    Option PState :=
  if startsW (S "BEGIN:VCARD") field || startsW (S "END:VCARD") field then
    some st
  else if startsW (S "VERSION:") field || startsW (S "PRODID:") field ||
      startsW (S "VND-63-SENSITIVE-CONTENT-CONFIG:") field then
    some st
  else if field == S "X-ABShowAs:COMPANY" then
    some (addSave st [(S "Is Company", S "X")])
  else if startsW (S "N:") field then
    let parts := splitCh ';' (pyStrip (afterCh ':' field))
    if parts.length < 5 then none
    else some (addSave st (namePairs parts))
  else if startsW (S "FN:") field then
    some (addSave st [(S "Name: Full", pyStrip (afterCh ':' field))])
  else if startsW (S "NICKNAME:") field then
    some (addSave st [(S "Name: Nickname", pyStrip (afterCh ':' field))])
  else if startsW (S "X-MAIDENNAME:") field then
    some (addSave st [(S "Name: Maiden", pyStrip (afterCh ':' field))])
  else if startsW (S "X-PHONETIC-FIRST-NAME:") field then
    some (addSave st [(S "Name: First (Phonetic)", pyStrip (afterCh ':' field))])
  else if startsW (S "X-PHONETIC-MIDDLE-NAME:") field then
    some (addSave st [(S "Name: Middle (Phonetic)", pyStrip (afterCh ':' field))])
  else if startsW (S "X-PHONETIC-LAST-NAME:") field then
    some (addSave st [(S "Name: Last (Phonetic)", pyStrip (afterCh ':' field))])
  else if startsW (S "ORG:") field then
    let parts := splitCh ';' (field.drop 4)
    if parts.length < 2 then none
    else some (addSave st
      (truthyPair (S "Organization: Name") (parts.getD 0 []) ++
       truthyPair (S "Organization: Department") (parts.getD 1 [])))
  else if startsW (S "X-PHONETIC-ORG:") field then
    some (addSave st [(S "Organization: Name (Phonetic)", pyStrip (afterCh ':' field))])
  else if startsW (S "TITLE:") field then
    some (addSave st [(S "Organization: Title", pyStrip (afterCh ':' field))])
  else if startsW (S "EMAIL;") field then
    let parts := splitCh ';' (pyStrip (afterCh ';' field))
    let label := parts.foldl
      (fun lab e =>
        match matchTypeSingle (pyStrip e) with
        | some g => if g == S "INTERNET" then lab else pyCapitalize g
        | none => lab) []
    let pairs := parts.foldl
      (fun acc e =>
        match matchTypeCompound (pyStrip e) with
        | some g =>
          acc ++ [(S "Email: " ++ label, g.2)] ++
            (if cfg.preferred && (pyLower g.1 == S "pref") then
              [(S "Email: " ++ label ++ S " (Preferred)", g.2)]
            else [])
        | none => acc) []
    some (addSave st pairs)
  else if startsW (S "TEL;") field then
    let parts := splitCh ';' (pyStrip (afterCh ';' field))
    let labels0 := parts.foldl
      (fun ls e =>
        match matchTypeSingle (pyStrip e) with
        | some g =>
          if pyCapitalize g == S "Voice" then ls else ls ++ [pyCapitalize g]
        | none => ls) []
    let res := parts.foldl
      (fun (acc : List Str × List (Str × Str)) e =>
        match matchTypeCompound (pyStrip e) with
        | some g =>
          let labels :=
            if pyCapitalize g.1 == S "Voice" then acc.1
            else acc.1 ++ [pyCapitalize g.1]
          let sel := labelSelect labels
          (labels,
            acc.2 ++ [(sel, formatPhone cfg g.2)] ++
              (if cfg.preferred && (pyLower g.1 == S "pref") then
                [(sel ++ S " (Preferred)", formatPhone cfg g.2)]
              else []))
        | none => acc) (labels0, [])
    some (addSave st res.2)
  else if startsW (S "ADR;") field then
    match matchTypePref (pyStrip (afterCh ';' field)) with
    | none => none
    | some g =>
      let lab := pyCapitalize g.1
      some (addSave st
        ([(S "Address: " ++ lab, formatAddress cfg g.2)] ++
          (if cfg.preferred && containsSub (S ";type=pref:") field then
            [(S "Address: " ++ lab ++ S " (Preferred)", formatAddress cfg g.2)]
          else [])))
  else if startsW (S "X-SOCIALPROFILE;") field then
    match splitOnce? ':' (pyStrip (afterCh ';' field)) with
    | none => none
    | some p =>
      let eqParts := splitCh '=' p.1
      if eqParts.length < 2 then none
      else some (addSave st
        [(S "Social: " ++ pyStrip (pyCapitalize (eqParts.getD 1 [])), pyStrip p.2)])
  else if startsW (S "NOTE:") field then
    some (addSave st [(S "Note", pyStrip (afterCh ':' field))])
  else if startsW (S "URL;") field then
    match splitOnce? ':' (pyStrip (afterCh ';' field)) with
    | none => none
    | some p =>
      let eqParts := splitCh '=' p.1
      if eqParts.length < 2 then none
      else some (addSave st
        [(S "URL: " ++ pyStrip (pyCapitalize (eqParts.getD 1 [])), pyStrip p.2)])
  else if startsW (S "BDAY") field then
    some (addSave st
      [(S "Date: Birthday",
        pyStrip (afterChOr ':' (subYearless (pyStrip (afterChOr ';' field)))))])
  else
    match matchGrouped field with
    | some kv => some { st with groups := groupAdd st.groups kv.1 kv.2 }
    | none => some (addSave st [(S "Unknown", field)])

/-- One iteration of the line loop, including the `PHOTO;` skip logic that
runs before stripping. -/
def procLine (cfg : Config) (field : Str) (skip : Bool) (st : PState) :
    Option (Bool × PState) :=
  if startsW (S "PHOTO;") (pyStrip field) then some (true, st)
  else if skip then
    if startsW (S " ") field then some (true, st)
    else (classifyStripped cfg (pyStrip field) st).map (fun s2 => (false, s2))
  else (classifyStripped cfg (pyStrip field) st).map (fun s2 => (false, s2))

/-- The line loop over an entry's lines. -/
def procLines (cfg : Config) : List Str → Bool → PState → Option (Bool × PState)
  | [], skip, st => some (skip, st)
  | l :: ls, skip, st =>
    match procLine cfg l skip st with
    | none => none
    | some r => procLines cfg ls r.1 r.2

/-- Dispatch on `data`'s prefix once `label`/`data` are known, including
the `_$!<...>!$_` unwrap that precedes it.  Mirrors lines 306-361 of the
source; note that the `pref` tests in the TEL/ADR/URL/IMPP branches read
`data[0]` after `data` was reassigned to the value string, i.e. they test
the value's first character. -/
def dispatchGroup (cfg : Config) (k : Nat) (vs : List Str)
    (label0 data : Str) (save : List (Str × Str)) :
    Option (List (Str × Str)) :=
  let label :=
    match matchExtraLabel label0 with
    | some inner => pyStrip inner
    | none => label0
  if startsW (S "EMAIL;") data then
    match splitOnce? ':' (pyStrip (afterCh ';' data)) with
    | none => none
    | some p =>
      some (save ++ [(S "Email: " ++ label, pyStrip p.2)] ++
        (if cfg.preferred && endsW (S "pref") p.1 then
          [(S "Email: " ++ label ++ S " (Preferred)", pyStrip p.2)]
        else []))
  else if startsW (S "TEL:") data || startsW (S "TEL;") data then
    match splitOnce? ':' data with
    | none => none
    | some p =>
      let d := pyStrip p.2
      let base := save ++ [(S "Phone: " ++ label, formatPhone cfg d)]
      if cfg.preferred then
        match d with
        | [] => none
        | c :: _ =>
          some (base ++
            (if endsW (S "pref") [c] then
              [(S "Phone: " ++ label ++ S " (Preferred)", formatPhone cfg d)]
            else []))
      else some base
  else if startsW (S "ADR:") data || startsW (S "ADR;") data then
    match splitOnce? ':' data with
    | none => none
    | some p =>
      let d := pyStrip p.2
      let base := save ++ [(S "Address: " ++ label, formatAddress cfg d)]
      if cfg.preferred then
        match d with
        | [] => none
        | c :: _ =>
          some (base ++
            (if endsW (S "pref") [c] then
              [(S "Address: " ++ label ++ S " (Preferred)", formatAddress cfg d)]
            else []))
      else some base
  else if startsW (S "URL:") data || startsW (S "URL;") data then
    match splitOnce? ':' data with
    | none => none
    | some p =>
      let d := pyStrip p.2
      let base := save ++ [(S "URL: " ++ label, d)]
      if cfg.preferred then
        match d with
        | [] => none
        | c :: _ =>
          some (base ++
            (if endsW (S "pref") [c] then
              [(S "URL: " ++ label ++ S " (Preferred)", d)]
            else []))
      else some base
  else if startsW (S "X-AIM") data || startsW (S "X-JABBER") data ||
      startsW (S "X-MSN") data || startsW (S "X-YAHOO") data ||
      startsW (S "X-ICQ") data then
    some save
  else if startsW (S "IMPP;") data then
    match splitOnce? ':' data with
    | none => none
    | some p =>
      let d := pyStrip p.2
      match splitOnce? ':' d with
      | none => none
      | some q =>
        let base := save ++ [(S "IMPP: " ++ label, pyStrip q.2)]
        if cfg.preferred then
          match d with
          | [] => none
          | c :: _ =>
            some (base ++
              (if endsW (S "pref") [c] then
                [(S "IMPP: " ++ label ++ S " (Preferred)", d)]
              else []))
        else some base
  else if startsW (S "X-ABDATE:") data || startsW (S "X-ABDATE;") data then
    if containsSub (S "X-APPLE-OMIT-YEAR") data then
      some (save ++ [(S "Date: " ++ label, pyStrip (subYearless data))])
    else
      match splitOnce? ':' data with
      | none => none
      | some p => some (save ++ [(S "Date: " ++ label, pyStrip p.2)])
  else if startsW (S "X-ABRELATEDNAMES:") data ||
      startsW (S "X-ABRELATEDNAMES;") data then
    match splitOnce? ':' data with
    | none => none
    | some p => some (save ++ [(S "Relationship: " ++ label, pyStrip p.2)])
  else
    some (save ++ [(S "Unknown", groupRepr k vs)])

/-- Resolution of one collected group (lines 282-361).  A single-value
group hits `groups[group][1]` and raises IndexError (`none`); for two or
more values only the first two drive the resolution.  The unresolvable
path appends an `"Unknown"` pair and then falls through to the dispatch
with empty `label`/`data`, which appends the same pair a second time. -/
def resolveGroup (cfg : Config) (k : Nat) (vs : List Str)
    (save : List (Str × Str)) : Option (List (Str × Str)) :=
  match vs with
  | [] => none
  | [_] => none
  | v0 :: v1 :: _ =>
    if startsW (S "X-ABLabel:") v1 then
      dispatchGroup cfg k vs (splitIdx1 (S "X-ABLabel:") v1) v0 save
    else if startsW (S "X-ABLabel:") v0 then
      dispatchGroup cfg k vs (splitIdx1 (S "X-ABLabel:") v0) v1 save
    else if startsW (S "X-ABADR:") v0 || startsW (S "X-ABADR:") v1 then
      let data := if startsW (S "X-ABADR:") v1 then v0 else v1
      match splitOnce? ';' data with
      | none => none
      | some p =>
        match matchTypePref (pyStrip p.2) with
        | none => none
        | some g =>
          let lab := pyCapitalize g.1
          some (save ++ [(S "Address: " ++ lab, formatAddress cfg g.2)] ++
            (if cfg.preferred && containsSub (S ";type=pref:") data then
              [(S "Address: " ++ lab ++ S " (Preferred)", formatAddress cfg g.2)]
            else []))
    else
      dispatchGroup cfg k vs [] []
        (save ++ [(S "Unknown", groupRepr k vs)])

/-- Processing of one entry: the line loop followed by the grouped-field
resolver over the collected groups, in dict insertion order. -/
def processEntry (cfg : Config) (lines : List Str) :
    Option (List (Str × Str)) :=
  match procLines cfg lines false ⟨[], []⟩ with
  | none => none
  | some r =>
    r.2.groups.foldl
      (fun acc kv =>
        match acc with
        | none => none
        | some save => resolveGroup cfg kv.1 kv.2 save)
      (some r.2.save)

/-- The hard-coded `field_order` list of `custom_column_ordering`. -/
def staticOrder : List Str :=
  [S "Is Company", S "Organization: Name", S "Organization: Name (Phonetic)",
   S "Organization: Department", S "Title", S "Name: Full", S "Name: Prefix",
   S "Name: First", S "Name: Middle", S "Name: Last", S "Name: Maiden",
   S "Name: Suffix", S "Name: First (Phonetic)", S "Name: Middle (Phonetic)",
   S "Name: Last (Phonetic)", S "Nickname", S "Phone: iPhone",
   S "Phone: iPhone (Preferred)", S "Phone: Cell", S "Phone: Cell (Preferred)",
   S "Phone: Work", S "Phone: Work (Preferred)", S "Phone: Home",
   S "Phone: Home (Preferred)"]

/-- The hard-coded `field_order2` list. -/
def fieldOrder2 : List Str :=
  [S "Email: Work", S "Email: Work (Preferred)", S "Email: Home",
   S "Email: Home (Preferred)"]

/-- `if selected_field not in field_order: field_order.append(...)`. -/
def appendIfAbsent (fo : List Str) (x : Str) : List Str :=
  if x ∈ fo then fo else fo ++ [x]

/-- First dynamic pass: discovered `Phone`/`Pager`/`Fax` columns. -/
def dynPass1 (uh : List Str) (fo : List Str) : List Str :=
  [S "Phone", S "Pager", S "Fax"].foldl
    (fun fo p => (uh.filter (fun f => startsW p f)).foldl appendIfAbsent fo) fo

/-- Second dynamic pass: discovered `Email`/`Address`/`Date`/`Relationship`
columns; the absence test is against `field_order2` only, and the append is
unconditional. -/
def dynPass2 (uh : List Str) (fo : List Str) : List Str :=
  [S "Email", S "Address", S "Date", S "Relationship"].foldl
    (fun fo p =>
      (uh.filter (fun f => startsW p f)).foldl
        (fun fo x => if x ∈ fieldOrder2 then fo else fo ++ [x]) fo) fo

/-- The complete `field_order` value right before the final selection
loop. -/
def buildFieldOrder (uh : List Str) : List Str :=
  dynPass2 uh (dynPass1 uh staticOrder ++ fieldOrder2)

/-- Python `list.remove`: deletes the first occurrence. -/
def pyRemove (a : Str) : List Str → List Str
  | [] => []
  | x :: xs => if x = a then xs else x :: pyRemove a xs

/-- The final selection loop of `custom_column_ordering`: walks
`field_order`, moving each field found in `unique_headers` into `headers`
and removing it from `unique_headers` (mutation of the argument). -/
def selectLoop : List Str → List Str → List Str × List Str
  | [], uh => ([], uh)
  | f :: fs, uh =>
    if f ∈ uh then
      let r := selectLoop fs (pyRemove f uh)
      (f :: r.1, r.2)
    else selectLoop fs uh

/-- `custom_column_ordering`, with the module-level `enabled` attribute as
an explicit argument.  Returns the result list together with the final
state of the `unique_headers` argument (the source mutates it in place). -/
def customColumnOrdering (uh : List Str) (enabled : Bool) :
    List Str × List Str :=
  if !enabled then (uh, uh)
  else
    let r := selectLoop (buildFieldOrder uh) uh
    (r.1 ++ r.2, r.2)

/-- Labels placed by the fixed priority arrangement: members of the two
hard-coded lists, plus anything the two dynamic passes pick up by
prefix. -/
def recognizedB (x : Str) : Bool :=
  decide (x ∈ staticOrder) || decide (x ∈ fieldOrder2) ||
  startsW (S "Phone") x || startsW (S "Pager") x || startsW (S "Fax") x ||
  startsW (S "Email") x || startsW (S "Address") x || startsW (S "Date") x ||
  startsW (S "Relationship") x

/-- Strict lexicographic order on the character-list model of strings. -/
def lexLtB : Str → Str → Bool
  | [], [] => false
  | [], _ :: _ => true
  | _ :: _, [] => false
  | a :: as, b :: bs => if a = b then lexLtB as bs else decide (a < b)

/-- No classification rule of the line loop matches `field` (and the line
is non-empty): the conjunction of the negations of every rule guard, in
source order. -/
abbrev NoRuleMatches (field : Str) : Prop :=
  field ≠ [] ∧
  startsW (S "BEGIN:VCARD") field = false ∧
  startsW (S "END:VCARD") field = false ∧
  startsW (S "VERSION:") field = false ∧
  startsW (S "PRODID:") field = false ∧
  startsW (S "VND-63-SENSITIVE-CONTENT-CONFIG:") field = false ∧
  (field == S "X-ABShowAs:COMPANY") = false ∧
  startsW (S "N:") field = false ∧
  startsW (S "FN:") field = false ∧
  startsW (S "NICKNAME:") field = false ∧
  startsW (S "X-MAIDENNAME:") field = false ∧
  startsW (S "X-PHONETIC-FIRST-NAME:") field = false ∧
  startsW (S "X-PHONETIC-MIDDLE-NAME:") field = false ∧
  startsW (S "X-PHONETIC-LAST-NAME:") field = false ∧
  startsW (S "ORG:") field = false ∧
  startsW (S "X-PHONETIC-ORG:") field = false ∧
  startsW (S "TITLE:") field = false ∧
  startsW (S "EMAIL;") field = false ∧
  startsW (S "TEL;") field = false ∧
  startsW (S "ADR;") field = false ∧
  startsW (S "X-SOCIALPROFILE;") field = false ∧
  startsW (S "NOTE:") field = false ∧
  startsW (S "URL;") field = false ∧
  startsW (S "BDAY") field = false ∧
  matchGrouped field = none

/-- Configuration with every feature toggle off. -/
def cfgOff : Config := ⟨false, false, false⟩

/-- Configuration with only preferred-duplication on. -/
def cfgPref : Config := ⟨true, false, false⟩

/-! ## Helper lemmas -/

/-- Unfolding of the `ADR;` rule: the whole earlier rule chain reduces away
on any line of the form `ADR;rest`. -/
theorem classify_ADR (cfg : Config) (st : PState) (rest : Str) :
    classifyStripped cfg (S "ADR;" ++ rest) st =
      match matchTypePref (pyStrip rest) with
      | none => none
      | some g =>
        let lab := pyCapitalize g.1
        some (addSave st
          ([(S "Address: " ++ lab, formatAddress cfg g.2)] ++
            (if cfg.preferred &&
                containsSub (S ";type=pref:") (S "ADR;" ++ rest) then
              [(S "Address: " ++ lab ++ S " (Preferred)", formatAddress cfg g.2)]
            else []))) := rfl

/-- Unfolding of the `N:` rule on any line of the form `N:rest`. -/
theorem classify_N (cfg : Config) (st : PState) (rest : Str) :
    classifyStripped cfg (S "N:" ++ rest) st =
      (if (splitCh ';' (pyStrip rest)).length < 5 then none
       else some (addSave st (namePairs (splitCh ';' (pyStrip rest))))) := rfl

/-- Dispatch with empty `label`/`data` (the unresolvable-group fall-through)
always appends the diagnostic pair. -/
theorem dispatch_empty (cfg : Config) (k : Nat) (vs : List Str)
    (save : List (Str × Str)) :
    dispatchGroup cfg k vs [] [] save =
      some (save ++ [(S "Unknown", groupRepr k vs)]) := rfl

/-! ## Claim C1 -/

/-- Claim C1 is false on the code: the malformed line `N:Doe;John` (only
two semicolon-separated components) does not degrade to an `"Unknown"`
pair; classification raises an uncaught IndexError at `parts[2]`, modelled
by the entry evaluating to `none`. -/
theorem claimC1_counterexample :
    processEntry cfgOff [S "N:Doe;John"] = none := by decide

/-- Claim C1 amended: a line matched by the `N:` rule whose remainder has
fewer than 5 semicolon-separated components, or a line matched by the
`ADR;` rule whose parameter block does not match the type pattern, makes
classification fail with an uncaught exception (`none`); it does not
degrade to an `("Unknown", line)` pair. -/
theorem claimC1_amended :
    (∀ (cfg : Config) (st : PState) (rest : Str),
      (splitCh ';' (pyStrip rest)).length < 5 →
      classifyStripped cfg (S "N:" ++ rest) st = none) ∧
    (∀ (cfg : Config) (st : PState) (rest : Str),
      matchTypePref (pyStrip rest) = none →
      classifyStripped cfg (S "ADR;" ++ rest) st = none) := by
  constructor
  · intro cfg st rest h
    rw [classify_N, if_pos h]
  · intro cfg st rest h
    rw [classify_ADR, h]

/-- Witness for `claimC1_amended` at the concrete malformed lines
`N:Doe;John` and `ADR;foo`. -/
theorem claimC1_witness :
    ((splitCh ';' (pyStrip (S "Doe;John"))).length < 5 ∧
      classifyStripped cfgOff (S "N:" ++ S "Doe;John") ⟨[], []⟩ = none) ∧
    (matchTypePref (pyStrip (S "foo")) = none ∧
      classifyStripped cfgOff (S "ADR;" ++ S "foo") ⟨[], []⟩ = none) :=
  ⟨⟨by decide, claimC1_amended.1 cfgOff ⟨[], []⟩ (S "Doe;John") (by decide)⟩,
   ⟨by decide, claimC1_amended.2 cfgOff ⟨[], []⟩ (S "foo") (by decide)⟩⟩

/-! ## Claim C2 -/

/-- Claim C2 is false on the code: a grouped item with a single collected
value (here `item1.FOO:x`, giving `groups[1] = ["FOO:x"]`) does not
degrade to an `"Unknown"` pair; the resolver raises an uncaught
IndexError at `groups[group][1]`, modelled by the entry evaluating to
`none`. -/
theorem claimC2_counterexample :
    processEntry cfgOff [S "item1.FOO:x"] = none := by decide

/-- Claim C2 amended: a group with two or more collected values whose
first two values match no dispatch prefix resolves without error to
`("Unknown", "Item Group: {N}, Values: {...}")` pairs (the diagnostic
pair is appended twice, once by the unresolvable branch and once by the
dispatch fall-through); a group with exactly one collected value makes
the resolver raise an uncaught IndexError (`none`) instead of degrading;
prefixes `X-AIM`/`X-JABBER`/`X-MSN`/`X-YAHOO`/`X-ICQ` are dropped by
design. -/
theorem claimC2_amended :
    (∀ (cfg : Config) (k : Nat) (v0 v1 : Str) (rest : List Str)
        (save : List (Str × Str)),
      startsW (S "X-ABLabel:") v1 = false →
      startsW (S "X-ABLabel:") v0 = false →
      startsW (S "X-ABADR:") v0 = false →
      startsW (S "X-ABADR:") v1 = false →
      resolveGroup cfg k (v0 :: v1 :: rest) save =
        some (save ++ [(S "Unknown", groupRepr k (v0 :: v1 :: rest)),
                       (S "Unknown", groupRepr k (v0 :: v1 :: rest))])) ∧
    (∀ (cfg : Config) (k : Nat) (v : Str) (save : List (Str × Str)),
      resolveGroup cfg k [v] save = none) ∧
    (∀ (cfg : Config) (k : Nat) (save : List (Str × Str)),
      resolveGroup cfg k [S "X-AIM:handle", S "X-ABLabel:chat"] save =
        some save) := by
  refine ⟨?_, fun cfg k v save => rfl, fun cfg k save => rfl⟩
  intro cfg k v0 v1 rest save h1 h0 ha0 ha1
  simp only [resolveGroup, h1, h0, ha0, ha1, Bool.or_self, Bool.false_eq_true,
    if_false, dispatch_empty, List.append_assoc, List.singleton_append,
    List.cons_append, List.nil_append]

/-- Witness for `claimC2_amended` at a concrete unresolvable two-value
group. -/
theorem claimC2_witness :
    (startsW (S "X-ABLabel:") (S "BAR:y") = false ∧
     startsW (S "X-ABLabel:") (S "FOO:x") = false ∧
     startsW (S "X-ABADR:") (S "FOO:x") = false ∧
     startsW (S "X-ABADR:") (S "BAR:y") = false) ∧
    resolveGroup cfgOff 1 [S "FOO:x", S "BAR:y"] [] =
      some [(S "Unknown", groupRepr 1 [S "FOO:x", S "BAR:y"]),
            (S "Unknown", groupRepr 1 [S "FOO:x", S "BAR:y"])] :=
  ⟨⟨by decide, by decide, by decide, by decide⟩, by
    have h := claimC2_amended.1 cfgOff 1 (S "FOO:x") (S "BAR:y") [] []
      (by decide) (by decide) (by decide) (by decide)
    simpa using h⟩

/-! ## Claim C3 -/

/-- Claim C3 is right about the intended behavior and the code is wrong:
with preferred-duplication on, the grouped pair
`item1.X-ABLabel:Work` / `item1.TEL;type=pref:555-000-1111` (parameter
token ends in `pref`) yields only the plain pair, with no
`" (Preferred)"` duplicate, because the resolver tests
`data[0].endswith("pref")` after `data` has been reassigned to the value
string: the test reads the value's first character, and a one-character
string never ends with `"pref"`. -/
theorem claimC3_code_bug :
    processEntry cfgPref
        [S "item1.X-ABLabel:Work", S "item1.TEL;type=pref:555-000-1111"] =
      some [(S "Phone: Work", S "555-000-1111")] ∧
    (∀ c : Char, endsW (S "pref") [c] = false) := by
  refine ⟨by decide, fun c => ?_⟩
  show (('f' == c) && false) = false
  exact Bool.and_false _

/-! ## Claim C4 -/

/-- Claim C4 is false on the code: a `TEL;` line whose selected label is
`Pager` is emitted under the bare label `"Pager"`, not under
`"Phone: Pager"` as the claimed `("Phone: {selected}", value)` shape
requires. -/
theorem claimC4_counterexample :
    processEntry cfgOff [S "TEL;type=PAGER:555-1234"] =
      some [(S "Pager", S "555-1234")] ∧
    S "Pager" ≠ S "Phone: Pager" := by
  constructor
  · decide
  · decide

/-- Claim C4 amended: the `TEL;` rule collects single-token type labels
(capitalized, excluding `Voice`) and selects the final label by the fixed
priority Pager, then Fax, then AppleWatch, then iPhone, then Cell, then
Home/Work/Other/Main — where the Fax and Home/Work/Other/Main sub-choices
take the LAST candidate present in that list order (the source loops have
no `break`), and the emitted label is the selected string itself: bare
`"Pager"` for pagers, `"Fax: X"` for faxes, `"Phone: X"` otherwise — with
US phone reformatting applied to the value when enabled, and a preferred
duplicate when the compound token is `pref`. -/
theorem claimC4_amended :
    (∀ labels : List Str,
      labelSelect labels =
        if S "Pager" ∈ labels then S "Pager"
        else if S "Fax" ∈ labels then
          (if S "Other" ∈ labels then S "Fax: " ++ S "Other"
           else if S "Work" ∈ labels then S "Fax: " ++ S "Work"
           else if S "Home" ∈ labels then S "Fax: " ++ S "Home"
           else [])
        else if S "Applewatch" ∈ labels then S "Phone: Apple Watch"
        else if S "Iphone" ∈ labels then S "Phone: iPhone"
        else if S "Cell" ∈ labels then S "Phone: Cell"
        else
          (if S "Main" ∈ labels then S "Phone: " ++ S "Main"
           else if S "Other" ∈ labels then S "Phone: " ++ S "Other"
           else if S "Work" ∈ labels then S "Phone: " ++ S "Work"
           else if S "Home" ∈ labels then S "Phone: " ++ S "Home"
           else [])) ∧
    (∀ pr ad : Bool,
      processEntry ⟨pr, ad, true⟩ [S "TEL;type=CELL:5551234567"] =
        some [(S "Phone: Cell", S "555-123-4567")]) ∧
    processEntry cfgOff [S "TEL;type=PAGER:555-1234"] =
      some [(S "Pager", S "555-1234")] ∧
    processEntry cfgOff [S "TEL;type=FAX;type=HOME:555-1234"] =
      some [(S "Fax: Home", S "555-1234")] ∧
    processEntry cfgOff [S "TEL;type=HOME;type=WORK:555-1234"] =
      some [(S "Phone: Work", S "555-1234")] ∧
    processEntry cfgPref [S "TEL;type=CELL;type=pref:555-123-4567"] =
      some [(S "Phone: Cell", S "555-123-4567"),
            (S "Phone: Cell (Preferred)", S "555-123-4567")] :=
  ⟨fun _ => rfl, fun pr ad => by cases pr <;> cases ad <;> decide,
   by decide, by decide, by decide, by decide⟩

/-! ## Claim C5 -/

/-- Claim C5 is false on the code: with reordering enabled,
`custom_column_ordering` mutates the label collection passed to it —
after the call on `["Is Company"]` the argument list has become empty. -/
theorem claimC5_counterexample :
    (customColumnOrdering [S "Is Company"] true).2 ≠ [S "Is Company"] := by
  decide

/-- Claim C5 amended: the column-ordering function leaves its argument
unmodified (and is pure) only when reordering is disabled; when enabled
it removes every recognized emitted label from the collection passed in
(in-place mutation in the source).  The module-level `enabled` attribute
is modelled as an explicit argument, on which alone (with the collection)
the result depends. -/
theorem claimC5_amended :
    (∀ uh : List Str, customColumnOrdering uh false = (uh, uh)) ∧
    customColumnOrdering [S "Is Company"] true = ([S "Is Company"], []) :=
  ⟨fun uh => rfl, by decide⟩

/-! ## Claim C6 -/

/-- One-step unfolding of the line loop. -/
theorem procLines_cons (cfg : Config) (l : Str) (ls : List Str) (sk : Bool)
    (st : PState) :
    procLines cfg (l :: ls) sk st =
      match procLine cfg l sk st with
      | none => none
      | some r => procLines cfg ls r.1 r.2 := rfl

/-- While the photo-skip flag is set, a line starting with a space is
dropped and the state is unchanged (also when the line itself strips to a
`PHOTO;` line, which merely re-arms the flag). -/
theorem procLine_space (cfg : Config) (c : Str) (st : PState)
    (hc : startsW (S " ") c = true) :
    procLine cfg c true st = some (true, st) := by
  by_cases h : startsW (S "PHOTO;") (pyStrip c) = true
  · unfold procLine
    rw [if_pos h]
  · simp [procLine, h, hc]

/-- A non-indented, non-photo line is classified identically whether or
not the photo-skip flag was set: the flag is cleared and the line is
processed normally. -/
theorem procLine_noskip (cfg : Config) (tel : Str) (st : PState)
    (h1 : startsW (S "PHOTO;") (pyStrip tel) = false)
    (h2 : startsW (S " ") tel = false) :
    procLine cfg tel true st = procLine cfg tel false st := by
  simp [procLine, h1, h2]

/-- A run of space-indented continuation lines under an active photo skip
contributes nothing: state and flag are preserved across the whole run. -/
theorem conts_skip (cfg : Config) :
    ∀ (conts ls : List Str) (st : PState),
      (∀ c ∈ conts, startsW (S " ") c = true) →
      procLines cfg (conts ++ ls) true st = procLines cfg ls true st := by
  intro conts
  induction conts with
  | nil => intro ls st _; rfl
  | cons c cs ih =>
    intro ls st h
    rw [List.cons_append, procLines_cons,
      procLine_space cfg c st (h c (List.mem_cons_self c cs))]
    exact ih ls st (fun x hx => h x (List.mem_cons_of_mem c hx))

/-- Claim C6 confirmed: a `PHOTO;` line followed by space-indented
continuation lines contributes zero pairs, the skip state is cleared at
the first non-indented line, and the remaining lines are classified
exactly as they would be from a clean state; concretely, a photo block
followed by a preferred `TEL;` cell line yields exactly one pair, or two
when preferred duplication is enabled. -/
theorem claimC6 :
    (∀ (cfg : Config) (photo : Str) (conts : List Str) (tel : Str)
        (rest : List Str) (st : PState),
      startsW (S "PHOTO;") (pyStrip photo) = true →
      (∀ c ∈ conts, startsW (S " ") c = true) →
      startsW (S " ") tel = false →
      startsW (S "PHOTO;") (pyStrip tel) = false →
      procLines cfg (photo :: (conts ++ tel :: rest)) false st =
        procLines cfg (tel :: rest) false st) ∧
    (∀ pr : Bool,
      processEntry ⟨pr, false, false⟩
        [S "PHOTO;ENCODING=b;TYPE=JPEG:xxxx", S " yyyy", S " zzzz",
         S "TEL;type=CELL;type=pref:555-123-4567"] =
        some ((S "Phone: Cell", S "555-123-4567") ::
          (if pr then [(S "Phone: Cell (Preferred)", S "555-123-4567")]
           else []))) := by
  constructor
  · intro cfg photo conts tel rest st hp hc ht1 ht2
    rw [procLines_cons]
    have hphoto : procLine cfg photo false st = some (true, st) := by
      unfold procLine
      rw [if_pos hp]
    rw [hphoto]
    show procLines cfg (conts ++ tel :: rest) true st =
      procLines cfg (tel :: rest) false st
    rw [conts_skip cfg conts (tel :: rest) st hc, procLines_cons,
      procLines_cons, procLine_noskip cfg tel st ht2 ht1]
  · intro pr
    cases pr <;> decide

/-- Witness for `claimC6` at a concrete photo block followed by a `TEL;`
line. -/
theorem claimC6_witness :
    (startsW (S "PHOTO;") (pyStrip (S "PHOTO;ENCODING=b:abc")) = true ∧
     (∀ c ∈ [S " cont1", S " cont2"], startsW (S " ") c = true) ∧
     startsW (S " ") (S "TEL;type=CELL:5551234") = false ∧
     startsW (S "PHOTO;") (pyStrip (S "TEL;type=CELL:5551234")) = false) ∧
    procLines cfgOff
        (S "PHOTO;ENCODING=b:abc" ::
          ([S " cont1", S " cont2"] ++ S "TEL;type=CELL:5551234" :: []))
        false ⟨[], []⟩ =
      procLines cfgOff (S "TEL;type=CELL:5551234" :: []) false ⟨[], []⟩ :=
  ⟨⟨by decide, by decide, by decide, by decide⟩,
   claimC6.1 cfgOff (S "PHOTO;ENCODING=b:abc") [S " cont1", S " cont2"]
     (S "TEL;type=CELL:5551234") [] ⟨[], []⟩ (by decide) (by decide)
     (by decide) (by decide)⟩

/-! ## Claim C7 -/

/-- Claim C7 confirmed: a non-empty line matching no classification rule
(including the grouped-field pattern) is never dropped — classification
appends exactly the single pair `("Unknown", line)` to the state, leaving
the groups untouched; the classifier is a pure function of its arguments,
so classifying the same line twice yields the same pair. -/
theorem claimC7 (cfg : Config) (field : Str) (st : PState)
    (h : NoRuleMatches field) :
    classifyStripped cfg field st =
      some (addSave st [(S "Unknown", field)]) := by
  obtain ⟨-, h2, h3, h4, h5, h6, h7, h8, h9, h10, h11, h12, h13, h14, h15,
    h16, h17, h18, h19, h20, h21, h22, h23, h24, h25⟩ := h
  simp [classifyStripped, h2, h3, h4, h5, h6, h7, h8, h9, h10, h11, h12,
    h13, h14, h15, h16, h17, h18, h19, h20, h21, h22, h23, h24, h25]

/-- Witness for `claimC7` at the unrecognized line `FOO:bar`. -/
theorem claimC7_witness :
    NoRuleMatches (S "FOO:bar") ∧
    classifyStripped cfgOff (S "FOO:bar") ⟨[], []⟩ =
      some (addSave ⟨[], []⟩ [(S "Unknown", S "FOO:bar")]) :=
  ⟨by decide, claimC7 cfgOff (S "FOO:bar") ⟨[], []⟩ (by decide)⟩

/-! ## Claim C8 -/

/-- Claim C8 confirmed: for the entry with exactly the grouped pair
`item1.X-ABLabel:_$!<Assistant>!$_` and `item1.TEL:555-000-1111`, the
resolver takes the X-ABLabel value as label, unwraps the extra-label
wrapper to `Assistant`, dispatches the other value as TEL, and emits
exactly `("Phone: Assistant", "555-000-1111")`, for every combination of
the feature toggles. -/
theorem claimC8 :
    ∀ pr ad ph : Bool,
      processEntry ⟨pr, ad, ph⟩
        [S "BEGIN:VCARD", S "item1.X-ABLabel:_$!<Assistant>!$_",
         S "item1.TEL:555-000-1111", S "END:VCARD"] =
        some [(S "Phone: Assistant", S "555-000-1111")] := by
  intro pr ad ph
  cases pr <;> cases ad <;> cases ph <;> decide

/-! ## Claim C9 -/

/-- `appendIfAbsent` only appends (a copy of its argument) at the end. -/
theorem appendIfAbsent_step (fo : List Str) (a : Str) :
    ∃ t, appendIfAbsent fo a = fo ++ t ∧ ∀ y ∈ t, y = a := by
  unfold appendIfAbsent
  by_cases h : a ∈ fo
  · exact ⟨[], by simp [h]⟩
  · exact ⟨[a], by simp [h]⟩

/-- The conditional append of the second dynamic pass only appends at the
end. -/
theorem condAppend_step (fo : List Str) (a : Str) :
    ∃ t, (if a ∈ fieldOrder2 then fo else fo ++ [a]) = fo ++ t ∧
      ∀ y ∈ t, y = a := by
  by_cases h : a ∈ fieldOrder2
  · exact ⟨[], by simp [h]⟩
  · exact ⟨[a], by simp [h]⟩

/-- A fold whose step function only appends echoes of its argument
extends its base, adding only members of the folded list. -/
theorem foldl_extend (g : List Str → Str → List Str)
    (hg : ∀ fo a, ∃ t, g fo a = fo ++ t ∧ ∀ y ∈ t, y = a) :
    ∀ (xs fo : List Str),
      ∃ t, xs.foldl g fo = fo ++ t ∧ ∀ y ∈ t, y ∈ xs := by
  intro xs
  induction xs with
  | nil => intro fo; exact ⟨[], by simp⟩
  | cons a xs ih =>
    intro fo
    obtain ⟨t1, ht1, hy1⟩ := hg fo a
    obtain ⟨t2, ht2, hy2⟩ := ih (g fo a)
    refine ⟨t1 ++ t2, ?_, ?_⟩
    · rw [List.foldl_cons, ht2, ht1, List.append_assoc]
    · intro y hy
      rcases List.mem_append.1 hy with h | h
      · exact (hy1 y h) ▸ List.mem_cons_self a xs
      · exact List.mem_cons_of_mem a (hy2 y h)

/-- Members of the base survive such a fold. -/
theorem mem_foldl_of_base (g : List Str → Str → List Str)
    (hg : ∀ fo a, ∃ t, g fo a = fo ++ t ∧ ∀ y ∈ t, y = a)
    (xs fo : List Str) (x : Str) (hx : x ∈ fo) : x ∈ xs.foldl g fo := by
  obtain ⟨t, ht, -⟩ := foldl_extend g hg xs fo
  rw [ht]
  exact List.mem_append_left _ hx

/-- Every member of the folded list ends up in an `appendIfAbsent`
fold. -/
theorem mem_foldl_appendIfAbsent (xs : List Str) (x : Str) :
    ∀ fo : List Str, x ∈ xs → x ∈ xs.foldl appendIfAbsent fo := by
  induction xs with
  | nil => intro fo hx; cases hx
  | cons a xs ih =>
    intro fo hx
    rw [List.foldl_cons]
    rcases List.mem_cons.1 hx with h | h
    · subst h
      apply mem_foldl_of_base appendIfAbsent appendIfAbsent_step
      unfold appendIfAbsent
      by_cases hm : x ∈ fo
      · simp [hm]
      · simp [hm]
    · exact ih _ h

/-- Every member of the folded list outside `field_order2` ends up in the
second pass's conditional-append fold. -/
theorem mem_foldl_condAppend (xs : List Str) (x : Str)
    (hnf : x ∉ fieldOrder2) :
    ∀ fo : List Str, x ∈ xs →
      x ∈ xs.foldl (fun fo y => if y ∈ fieldOrder2 then fo else fo ++ [y]) fo := by
  induction xs with
  | nil => intro fo hx; cases hx
  | cons a xs ih =>
    intro fo hx
    rw [List.foldl_cons]
    rcases List.mem_cons.1 hx with h | h
    · subst h
      apply mem_foldl_of_base _ condAppend_step
      simp [hnf]
    · exact ih _ h

/-- Labels of the hard-coded `field_order` list are recognized. -/
theorem staticOrder_rec : ∀ x ∈ staticOrder, recognizedB x = true := by
  decide

/-- Labels of `field_order2` are recognized. -/
theorem fieldOrder2_rec : ∀ x ∈ fieldOrder2, recognizedB x = true := by
  decide

/-- The first dynamic pass extends its base with recognized labels
only. -/
theorem dynPass1_extend (uh fo : List Str) :
    ∃ t, dynPass1 uh fo = fo ++ t ∧ ∀ y ∈ t, recognizedB y = true := by
  simp only [dynPass1, List.foldl_cons, List.foldl_nil]
  obtain ⟨t1, h1, m1⟩ := foldl_extend appendIfAbsent appendIfAbsent_step
    (uh.filter (fun f => startsW (S "Phone") f)) fo
  obtain ⟨t2, h2, m2⟩ := foldl_extend appendIfAbsent appendIfAbsent_step
    (uh.filter (fun f => startsW (S "Pager") f)) _
  obtain ⟨t3, h3, m3⟩ := foldl_extend appendIfAbsent appendIfAbsent_step
    (uh.filter (fun f => startsW (S "Fax") f)) _
  refine ⟨t1 ++ t2 ++ t3, ?_, ?_⟩
  · rw [h3, h2, h1, List.append_assoc, List.append_assoc, List.append_assoc]
  · intro y hy
    rcases List.mem_append.1 hy with hy' | hy'
    · rcases List.mem_append.1 hy' with hy'' | hy''
      · have := (List.mem_filter.1 (m1 y hy'')).2
        simp only [recognizedB, this]
        simp
      · have := (List.mem_filter.1 (m2 y hy'')).2
        simp only [recognizedB, this]
        simp
    · have := (List.mem_filter.1 (m3 y hy')).2
      simp only [recognizedB, this]
      simp

/-- The second dynamic pass extends its base with recognized labels
only. -/
theorem dynPass2_extend (uh fo : List Str) :
    ∃ t, dynPass2 uh fo = fo ++ t ∧ ∀ y ∈ t, recognizedB y = true := by
  simp only [dynPass2, List.foldl_cons, List.foldl_nil]
  obtain ⟨t1, h1, m1⟩ := foldl_extend _ condAppend_step
    (uh.filter (fun f => startsW (S "Email") f)) fo
  obtain ⟨t2, h2, m2⟩ := foldl_extend _ condAppend_step
    (uh.filter (fun f => startsW (S "Address") f)) _
  obtain ⟨t3, h3, m3⟩ := foldl_extend _ condAppend_step
    (uh.filter (fun f => startsW (S "Date") f)) _
  obtain ⟨t4, h4, m4⟩ := foldl_extend _ condAppend_step
    (uh.filter (fun f => startsW (S "Relationship") f)) _
  refine ⟨t1 ++ t2 ++ t3 ++ t4, ?_, ?_⟩
  · rw [h4, h3, h2, h1]
    simp [List.append_assoc]
  · intro y hy
    rcases List.mem_append.1 hy with hy' | hy'
    · rcases List.mem_append.1 hy' with hy'' | hy''
      · rcases List.mem_append.1 hy'' with hy3 | hy3
        · have := (List.mem_filter.1 (m1 y hy3)).2
          simp only [recognizedB, this]
          simp
        · have := (List.mem_filter.1 (m2 y hy3)).2
          simp only [recognizedB, this]
          simp
      · have := (List.mem_filter.1 (m3 y hy'')).2
        simp only [recognizedB, this]
        simp
    · have := (List.mem_filter.1 (m4 y hy')).2
      simp only [recognizedB, this]
      simp

/-- Every member of the complete `field_order` is a recognized label. -/
theorem buildFieldOrder_rec (uh : List Str) (x : Str)
    (hx : x ∈ buildFieldOrder uh) : recognizedB x = true := by
  unfold buildFieldOrder at hx
  obtain ⟨t, ht, mt⟩ := dynPass2_extend uh (dynPass1 uh staticOrder ++ fieldOrder2)
  rw [ht] at hx
  rcases List.mem_append.1 hx with h | h
  · rcases List.mem_append.1 h with h' | h'
    · obtain ⟨t1, ht1, mt1⟩ := dynPass1_extend uh staticOrder
      rw [ht1] at h'
      rcases List.mem_append.1 h' with h'' | h''
      · exact staticOrder_rec x h''
      · exact mt1 x h''
    · exact fieldOrder2_rec x h'
  · exact mt x h

/-- A label placed by `dynPass1` by prefix. -/
theorem mem_dynPass1_of (uh fo : List Str) (x : Str) (hx : x ∈ uh)
    (hp : startsW (S "Phone") x = true ∨ startsW (S "Pager") x = true ∨
      startsW (S "Fax") x = true) : x ∈ dynPass1 uh fo := by
  simp only [dynPass1, List.foldl_cons, List.foldl_nil]
  rcases hp with h | h | h
  · exact mem_foldl_of_base _ appendIfAbsent_step _ _ _
      (mem_foldl_of_base _ appendIfAbsent_step _ _ _
        (mem_foldl_appendIfAbsent _ x fo (List.mem_filter.2 ⟨hx, h⟩)))
  · exact mem_foldl_of_base _ appendIfAbsent_step _ _ _
      (mem_foldl_appendIfAbsent _ x _ (List.mem_filter.2 ⟨hx, h⟩))
  · exact mem_foldl_appendIfAbsent _ x _ (List.mem_filter.2 ⟨hx, h⟩)

/-- A label outside `field_order2` placed by `dynPass2` by prefix. -/
theorem mem_dynPass2_of (uh fo : List Str) (x : Str) (hx : x ∈ uh)
    (hnf : x ∉ fieldOrder2)
    (hp : startsW (S "Email") x = true ∨ startsW (S "Address") x = true ∨
      startsW (S "Date") x = true ∨ startsW (S "Relationship") x = true) :
    x ∈ dynPass2 uh fo := by
  simp only [dynPass2, List.foldl_cons, List.foldl_nil]
  rcases hp with h | h | h | h
  · exact mem_foldl_of_base _ condAppend_step _ _ _
      (mem_foldl_of_base _ condAppend_step _ _ _
        (mem_foldl_of_base _ condAppend_step _ _ _
          (mem_foldl_condAppend _ x hnf fo (List.mem_filter.2 ⟨hx, h⟩))))
  · exact mem_foldl_of_base _ condAppend_step _ _ _
      (mem_foldl_of_base _ condAppend_step _ _ _
        (mem_foldl_condAppend _ x hnf _ (List.mem_filter.2 ⟨hx, h⟩)))
  · exact mem_foldl_of_base _ condAppend_step _ _ _
      (mem_foldl_condAppend _ x hnf _ (List.mem_filter.2 ⟨hx, h⟩))
  · exact mem_foldl_condAppend _ x hnf _ (List.mem_filter.2 ⟨hx, h⟩)

/-- Every recognized label present in the input collection occurs in the
complete `field_order`. -/
theorem mem_buildFieldOrder_of_rec (uh : List Str) (x : Str) (hx : x ∈ uh)
    (hr : recognizedB x = true) : x ∈ buildFieldOrder uh := by
  unfold buildFieldOrder
  have base : x ∈ dynPass1 uh staticOrder ++ fieldOrder2 →
      x ∈ dynPass2 uh (dynPass1 uh staticOrder ++ fieldOrder2) := by
    intro h
    obtain ⟨t, ht, -⟩ :=
      dynPass2_extend uh (dynPass1 uh staticOrder ++ fieldOrder2)
    rw [ht]
    exact List.mem_append_left _ h
  simp only [recognizedB, Bool.or_eq_true, decide_eq_true_eq] at hr
  by_cases hnf : x ∈ fieldOrder2
  · exact base (List.mem_append_right _ hnf)
  · rcases hr with ((((((((h | h) | h) | h) | h) | h) | h) | h) | h)
    · obtain ⟨t1, ht1, -⟩ := dynPass1_extend uh staticOrder
      refine base (List.mem_append_left _ ?_)
      rw [ht1]
      exact List.mem_append_left _ h
    · exact absurd h hnf
    · exact base (List.mem_append_left _ (mem_dynPass1_of uh _ x hx (Or.inl h)))
    · exact base (List.mem_append_left _ (mem_dynPass1_of uh _ x hx (Or.inr (Or.inl h))))
    · exact base (List.mem_append_left _ (mem_dynPass1_of uh _ x hx (Or.inr (Or.inr h))))
    · exact mem_dynPass2_of uh _ x hx hnf (Or.inl h)
    · exact mem_dynPass2_of uh _ x hx hnf (Or.inr (Or.inl h))
    · exact mem_dynPass2_of uh _ x hx hnf (Or.inr (Or.inr (Or.inl h)))
    · exact mem_dynPass2_of uh _ x hx hnf (Or.inr (Or.inr (Or.inr h)))

/-- The complete `field_order` starts with `"Is Company"`. -/
theorem buildFieldOrder_head (uh : List Str) :
    ∃ t, buildFieldOrder uh = S "Is Company" :: t := by
  unfold buildFieldOrder
  obtain ⟨t1, ht1, -⟩ := dynPass1_extend uh staticOrder
  obtain ⟨t2, ht2, -⟩ := dynPass2_extend uh (dynPass1 uh staticOrder ++ fieldOrder2)
  rw [ht2, ht1]
  exact ⟨(staticOrder.tail ++ t1) ++ fieldOrder2 ++ t2, by
    show (staticOrder ++ t1) ++ fieldOrder2 ++ t2 = _
    simp [staticOrder, List.append_assoc]⟩

/-- `list.remove` yields a sublist. -/
theorem pyRemove_sublist (a : Str) : ∀ l : List Str, List.Sublist (pyRemove a l) l := by
  intro l
  induction l with
  | nil => exact List.Sublist.refl _
  | cons b bs ih =>
    unfold pyRemove
    by_cases h : b = a
    · rw [if_pos h]
      exact List.sublist_cons_self b bs
    · rw [if_neg h]
      exact List.Sublist.cons₂ b ih

/-- On a duplicate-free list, `list.remove` deletes exactly the removed
element. -/
theorem mem_pyRemove_iff (a x : Str) : ∀ l : List Str, l.Nodup →
    (x ∈ pyRemove a l ↔ x ∈ l ∧ x ≠ a) := by
  intro l
  induction l with
  | nil => intro _; simp [pyRemove]
  | cons b bs ih =>
    intro hnd
    rw [List.nodup_cons] at hnd
    unfold pyRemove
    by_cases h : b = a
    · subst h
      rw [if_pos rfl]
      constructor
      · intro hx
        exact ⟨List.mem_cons_of_mem _ hx, fun e => hnd.1 (e ▸ hx)⟩
      · rintro ⟨hx, hne⟩
        rcases List.mem_cons.1 hx with e | e
        · exact absurd e hne
        · exact e
    · rw [if_neg h, List.mem_cons, ih hnd.2, List.mem_cons]
      constructor
      · rintro (e | ⟨hx, hne⟩)
        · exact ⟨Or.inl e, e ▸ h⟩
        · exact ⟨Or.inr hx, hne⟩
      · rintro ⟨e | hx, hne⟩
        · exact Or.inl e
        · exact Or.inr ⟨hx, hne⟩

/-- Equation of the selection loop when the field is present. -/
theorem selectLoop_cons_pos (f : Str) (fs uh : List Str) (h : f ∈ uh) :
    selectLoop (f :: fs) uh =
      (f :: (selectLoop fs (pyRemove f uh)).1,
        (selectLoop fs (pyRemove f uh)).2) := by
  simp only [selectLoop]
  rw [if_pos h]

/-- Equation of the selection loop when the field is absent. -/
theorem selectLoop_cons_neg (f : Str) (fs uh : List Str) (h : f ∉ uh) :
    selectLoop (f :: fs) uh = selectLoop fs uh := by
  simp only [selectLoop]
  rw [if_neg h]

/-- Moved headers all come from `field_order`. -/
theorem selectLoop_fst_mem : ∀ (order uh : List Str) (x : Str),
    x ∈ (selectLoop order uh).1 → x ∈ order := by
  intro order
  induction order with
  | nil => intro uh x hx; cases hx
  | cons f fs ih =>
    intro uh x hx
    by_cases h : f ∈ uh
    · rw [selectLoop_cons_pos f fs uh h] at hx
      rcases List.mem_cons.1 hx with e | e
      · exact e ▸ List.mem_cons_self f fs
      · exact List.mem_cons_of_mem f (ih _ x e)
    · rw [selectLoop_cons_neg f fs uh h] at hx
      exact List.mem_cons_of_mem f (ih _ x hx)

/-- What survives in `unique_headers` is a sublist of the input. -/
theorem selectLoop_snd_sublist : ∀ (order uh : List Str),
    List.Sublist (selectLoop order uh).2 uh := by
  intro order
  induction order with
  | nil => intro uh; exact List.Sublist.refl _
  | cons f fs ih =>
    intro uh
    by_cases h : f ∈ uh
    · rw [selectLoop_cons_pos f fs uh h]
      exact (ih (pyRemove f uh)).trans (pyRemove_sublist f uh)
    · rw [selectLoop_cons_neg f fs uh h]
      exact ih uh

/-- On a duplicate-free input, what survives in `unique_headers` is
exactly the input minus the members of `field_order`. -/
theorem mem_selectLoop_snd : ∀ (order uh : List Str), uh.Nodup →
    ∀ x : Str, (x ∈ (selectLoop order uh).2 ↔ x ∈ uh ∧ x ∉ order) := by
  intro order
  induction order with
  | nil => intro uh _ x; simp [selectLoop]
  | cons f fs ih =>
    intro uh hnd x
    by_cases h : f ∈ uh
    · rw [selectLoop_cons_pos f fs uh h]
      have hnd2 : (pyRemove f uh).Nodup :=
        hnd.sublist (pyRemove_sublist f uh)
      show x ∈ (selectLoop fs (pyRemove f uh)).2 ↔ _
      rw [ih _ hnd2 x, mem_pyRemove_iff f x uh hnd, List.mem_cons, not_or]
      tauto
    · rw [selectLoop_cons_neg f fs uh h, ih uh hnd x, List.mem_cons, not_or]
      have hf : x ∈ uh → x ≠ f := fun hx e => h (e ▸ hx)
      tauto

/-- Every `field_order` member present in the (duplicate-free) input is
moved into the ordered headers. -/
theorem mem_selectLoop_fst_of : ∀ (order uh : List Str), uh.Nodup →
    ∀ x : Str, x ∈ order → x ∈ uh → x ∈ (selectLoop order uh).1 := by
  intro order
  induction order with
  | nil => intro uh _ x hx; cases hx
  | cons f fs ih =>
    intro uh hnd x hx hxu
    by_cases h : f ∈ uh
    · rw [selectLoop_cons_pos f fs uh h]
      by_cases e : x = f
      · exact e ▸ List.mem_cons_self f _
      · rcases List.mem_cons.1 hx with e' | e'
        · exact absurd e' e
        · refine List.mem_cons_of_mem f (ih _ (hnd.sublist (pyRemove_sublist f uh)) x e' ?_)
          exact (mem_pyRemove_iff f x uh hnd).2 ⟨hxu, e⟩
    · rw [selectLoop_cons_neg f fs uh h]
      rcases List.mem_cons.1 hx with e' | e'
      · exact absurd (e' ▸ hxu) h
      · exact ih uh hnd x e' hxu

/-- Claim C9 confirmed: on a lexicographically sorted, duplicate-free
label collection, the column-ordering function with reordering enabled
puts `"Is Company"` first whenever present, and its output factors as the
recognized labels (all of them, in `field_order` position) followed by
exactly the unrecognized ones, which keep their input order and hence
stay sorted lexicographically among themselves. -/
theorem claimC9 (l : List Str)
    (hsort : l.Pairwise (fun a b => lexLtB a b = true)) (hnd : l.Nodup) :
    ((S "Is Company") ∈ l →
      ((customColumnOrdering l true).1).head? = some (S "Is Company")) ∧
    ∃ hds rest,
      (customColumnOrdering l true).1 = hds ++ rest ∧
      (∀ x ∈ hds, recognizedB x = true) ∧
      (∀ x ∈ l, recognizedB x = true → x ∈ hds) ∧
      (∀ x ∈ rest, recognizedB x = false) ∧
      (∀ x ∈ l, recognizedB x = false → x ∈ rest) ∧
      rest.Pairwise (fun a b => lexLtB a b = true) := by
  have hout : (customColumnOrdering l true).1 =
      (selectLoop (buildFieldOrder l) l).1 ++
        (selectLoop (buildFieldOrder l) l).2 := rfl
  constructor
  · intro hIC
    obtain ⟨t, ht⟩ := buildFieldOrder_head l
    rw [hout, ht, selectLoop_cons_pos _ _ _ hIC]
    rfl
  · refine ⟨_, _, hout, ?_, ?_, ?_, ?_, ?_⟩
    · intro x hx
      exact buildFieldOrder_rec l x (selectLoop_fst_mem _ _ x hx)
    · intro x hx hr
      exact mem_selectLoop_fst_of _ _ hnd x
        (mem_buildFieldOrder_of_rec l x hx hr) hx
    · intro x hx
      have h2 := (mem_selectLoop_snd _ _ hnd x).1 hx
      cases hq : recognizedB x with
      | false => rfl
      | true => exact absurd (mem_buildFieldOrder_of_rec l x h2.1 hq) h2.2
    · intro x hx hr
      refine (mem_selectLoop_snd _ _ hnd x).2 ⟨hx, fun hmem => ?_⟩
      rw [buildFieldOrder_rec l x hmem] at hr
      cases hr
    · exact hsort.sublist (selectLoop_snd_sublist _ _)

/-- Witness for `claimC9` at the sorted collection
`["Apple", "Is Company", "Zebra"]`. -/
theorem claimC9_witness :
    ([S "Apple", S "Is Company", S "Zebra"].Pairwise
        (fun a b => lexLtB a b = true) ∧
     [S "Apple", S "Is Company", S "Zebra"].Nodup) ∧
    (((S "Is Company") ∈ [S "Apple", S "Is Company", S "Zebra"] →
      ((customColumnOrdering [S "Apple", S "Is Company", S "Zebra"] true).1).head? =
        some (S "Is Company")) ∧
     ∃ hds rest,
      (customColumnOrdering [S "Apple", S "Is Company", S "Zebra"] true).1 =
        hds ++ rest ∧
      (∀ x ∈ hds, recognizedB x = true) ∧
      (∀ x ∈ [S "Apple", S "Is Company", S "Zebra"],
        recognizedB x = true → x ∈ hds) ∧
      (∀ x ∈ rest, recognizedB x = false) ∧
      (∀ x ∈ [S "Apple", S "Is Company", S "Zebra"],
        recognizedB x = false → x ∈ rest) ∧
      rest.Pairwise (fun a b => lexLtB a b = true)) :=
  ⟨⟨by decide, by decide⟩,
   claimC9 [S "Apple", S "Is Company", S "Zebra"] (by decide) (by decide)⟩

/-! ## Claim C10 -/

/-- Claim C10 confirmed: the line `TEL;type=CUSTOM:555-1234` — whose type
tokens include none of the recognized candidates — is emitted with the
empty string as its label, for every combination of the feature toggles;
the public interface does not guarantee non-empty labels. -/
theorem claimC10 :
    ∀ pr ad ph : Bool,
      processEntry ⟨pr, ad, ph⟩ [S "TEL;type=CUSTOM:555-1234"] =
        some [([], S "555-1234")] := by
  intro pr ad ph
  cases pr <;> cases ad <;> cases ph <;> decide

end VCard
